import Mathlib

/-!
Verification development for the maintsight-cli core pipeline:
the git history aggregator (GitCommitCollector.fetchCommitData), the
feature engineer (FeatureEngineer.transform / extractFeatureVector) and
the tree ensemble scorer (XGBoostPredictor.loadModel / predict /
predictSingle / predictTree / getRiskCategory).

Numbers are modelled by exact rationals; the logistic transform at the
end of scoring is modelled over the reals.  JavaScript values that can
be undefined or NaN are modelled by Option: a none result stands for a
NaN (or a thrown TypeError where noted).  JavaScript comparisons in
which one side is undefined or NaN evaluate to false; the model makes
every such comparison explicit.
-/

namespace MaintSight

/-! ## JavaScript string primitives used by the source -/

/-- Whitespace characters relevant to the parsed log lines (the source
splits the log on newline characters first, so these are the characters
a regex \s can still meet inside a line, plus the newline itself). -/
def isJsSpace (c : Char) : Bool :=
  c = ' ' || c = '\t' || c = '\r' || c = '\n'

/-- Split a character list at every occurrence of the separator;
JavaScript split with a one-character separator. -/
def splitChars (sep : Char) : List Char → List (List Char)
  | [] => [[]]
  | c :: rest =>
    match splitChars sep rest with
    | [] => [[]]
    | h :: t => if c = sep then [] :: h :: t else (c :: h) :: t

/-- JavaScript String.prototype.split with a one-character separator. -/
def splitOnCharJS (s : String) (sep : Char) : List String :=
  (splitChars sep s.data).map String.mk

/-- JavaScript includes for a single character. -/
def strContainsChar (s : String) (c : Char) : Bool :=
  s.data.contains c

/-- JavaScript toLowerCase (over the character list, so that it reduces
computationally). -/
def toLowerStr (s : String) : String :=
  String.mk (s.data.map Char.toLower)

/-- Value of a list of decimal digit characters. -/
def digitsToNat (ds : List Char) : Nat :=
  ds.foldl (fun acc c => acc * 10 + (c.toNat - 48)) 0

/-- Digits at the head of the character list, as a number; none when the
list does not start with a digit (parseInt would give NaN). -/
def parseIntDigits (cs : List Char) : Option Int :=
  let ds := cs.takeWhile Char.isDigit
  if ds.isEmpty then none else some (digitsToNat ds)

/-- JavaScript parseInt with default radix: skip leading whitespace, an
optional sign, then the longest run of decimal digits; none models NaN. -/
def parseIntJS (s : String) : Option Int :=
  let cs := s.data.dropWhile isJsSpace
  match cs with
  | '-' :: rest => (parseIntDigits rest).map (fun n => -n)
  | '+' :: rest => parseIntDigits rest
  | _ => parseIntDigits cs

/-- Exponent part accepted by parseFloat after an e or E: an optional
sign and at least one digit; when no digit follows, parseFloat stops
before the e and the exponent is zero. -/
def parseExpPart (cs : List Char) : Int :=
  match cs with
  | '-' :: rest => -(((parseIntDigits rest).getD 0))
  | '+' :: rest => (parseIntDigits rest).getD 0
  | _ => (parseIntDigits cs).getD 0

/-- The syntactic pieces parseFloat reads off a decimal string: sign,
value and length of the digit runs, exponent. -/
structure FloatParts where
  neg : Bool
  intVal : Nat
  fracVal : Nat
  fracLen : Nat
  expo : Int
deriving Repr, DecidableEq

/-- Scanning stage of JavaScript parseFloat on plain decimal notation:
leading whitespace, optional sign, digits, optional fraction, optional
exponent.  It reads the longest valid prefix and returns none (NaN)
when no digit is found at all. -/
def parseFloatParts (s : String) : Option FloatParts :=
  let cs := s.data.dropWhile isJsSpace
  let signNeg : Bool := match cs with
    | '-' :: _ => true
    | _ => false
  let cs1 : List Char := match cs with
    | '-' :: rest => rest
    | '+' :: rest => rest
    | _ => cs
  let intPart := cs1.takeWhile Char.isDigit
  let cs2 := cs1.drop intPart.length
  let fracPart : List Char := match cs2 with
    | '.' :: rest => rest.takeWhile Char.isDigit
    | _ => []
  let cs3 : List Char := match cs2 with
    | '.' :: rest => rest.drop fracPart.length
    | _ => cs2
  if intPart.isEmpty && fracPart.isEmpty then none
  else
    let expo : Int := match cs3 with
      | 'e' :: rest => parseExpPart rest
      | 'E' :: rest => parseExpPart rest
      | _ => 0
    some { neg := signNeg, intVal := digitsToNat intPart,
           fracVal := digitsToNat fracPart, fracLen := fracPart.length,
           expo := expo }

/-- Numeric value of the scanned pieces. -/
def partsToQ (p : FloatParts) : ℚ :=
  let mant : ℚ := (p.intVal : ℚ) + (p.fracVal : ℚ) / ((10 : ℚ) ^ p.fracLen)
  let v := mant * (10 : ℚ) ^ p.expo
  if p.neg then -v else v

/-- JavaScript parseFloat as a rational; none models NaN. -/
def parseFloatQ (s : String) : Option ℚ :=
  (parseFloatParts s).map partsToQ

/-- Character lists agree position by position for the length of the
first one. -/
def charsMatchAt : List Char → List Char → Bool
  | [], _ => true
  | _ :: _, [] => false
  | p :: ps, c :: cs => p = c && charsMatchAt ps cs

/-- The pattern occurs somewhere in the character list. -/
def containsChars (pat : List Char) : List Char → Bool
  | [] => pat.isEmpty
  | c :: rest => charsMatchAt pat (c :: rest) || containsChars pat rest

/-- messageLower.includes(kw): substring containment. -/
def strIncludes (s sub : String) : Bool :=
  containsChars sub.data s.data

/-- Node path.extname: the extension of the last path component, empty
when the component has no dot or only a leading dot. -/
def extname (p : String) : String :=
  let base := (splitOnCharJS p '/').getLastD p
  let cs := base.data
  let tailPart := cs.reverse.takeWhile (fun c => c ≠ '.')
  if tailPart.length = cs.length then ""
  else if cs.length - tailPart.length - 1 = 0 then ""
  else String.mk ('.' :: tailPart.reverse)

/-- Node path.basename, for the repository name (only carried along as a
label; no claim inspects it). -/
def basenameJS (p : String) : String :=
  ((splitOnCharJS p '/').filter (fun c => c ≠ "")).getLastD p

/-! ## Feature Engineer (src/services/feature-engineer.ts) -/

/-- The record shape FeatureEngineer.transform reads from each element
of its input array (the CommitData interface): lines_added,
lines_removed, prs, unique_authors, bug_prs, created_at, last_modified,
module.  Dates are modelled as milliseconds since the epoch. -/
structure CommitData where
  module : String
  lines_added : ℚ
  lines_removed : ℚ
  prs : ℚ
  unique_authors : ℚ
  bug_prs : ℚ
  created_at : ℚ
  last_modified : ℚ
deriving Repr, DecidableEq

/-- The CommitFeatures record produced by FeatureEngineer.transform. -/
structure CommitFeatures where
  module : String
  commits : ℚ
  authors : ℚ
  lines_added : ℚ
  lines_deleted : ℚ
  churn : ℚ
  bug_commits : ℚ
  refactor_commits : ℚ
  feature_commits : ℚ
  lines_per_author : ℚ
  churn_per_commit : ℚ
  bug_ratio : ℚ
  days_active : ℚ
  commits_per_day : ℚ
  degradation_days : ℚ
  net_lines : ℚ
  code_stability : ℚ
  is_high_churn_commit : ℚ
  bug_commit_rate : ℚ
  commits_squared : ℚ
  author_concentration : ℚ
  lines_per_commit : ℚ
  churn_rate : ℚ
  modification_ratio : ℚ
  churn_per_author : ℚ
  deletion_rate : ℚ
  commit_density : ℚ

/-- Body of the map inside FeatureEngineer.transform, line by line from
the source.  Math.max(record.prs || 0, 1) becomes max record.prs 1; the
days_active computation is Math.max(1, Math.floor(delta / 86400000) + 1)
on the millisecond difference of the two dates. -/
def transformOne (record : CommitData) : CommitFeatures :=
  let commits := max record.prs 1
  let authors := max record.unique_authors 1
  let lines_added := record.lines_added
  let lines_deleted := record.lines_removed
  let churn := lines_added + lines_deleted
  let bug_commits := record.bug_prs
  let days_active : ℚ :=
    max 1 ((⌊(record.last_modified - record.created_at) / 86400000⌋ : ℤ) + 1 : ℚ)
  let lines_per_author := (lines_added + lines_deleted) / authors
  let churn_per_commit := churn / commits
  let bug_ratio := bug_commits / commits
  let commits_per_day := commits / days_active
  let net_lines := lines_added - lines_deleted
  let code_stability := if 0 < commits then 1 / (1 + churn_per_commit) else 0
  let is_high_churn_commit : ℚ := if 50 < churn_per_commit then 1 else 0
  let bug_commit_rate := if 0 < days_active then bug_commits / days_active else 0
  let commits_squared := commits * commits
  let author_concentration := 1 / authors
  let lines_per_commit := (lines_added + lines_deleted) / commits
  let churn_rate := churn / max 1 net_lines
  let modification_ratio := lines_deleted / max 1 lines_added
  let churn_per_author := churn / authors
  let deletion_rate := lines_deleted / max 1 churn
  let commit_density := commits / days_active
  { module := record.module
    commits := commits
    authors := authors
    lines_added := lines_added
    lines_deleted := lines_deleted
    churn := churn
    bug_commits := bug_commits
    refactor_commits := 0
    feature_commits := commits - bug_commits
    lines_per_author := lines_per_author
    churn_per_commit := churn_per_commit
    bug_ratio := bug_ratio
    days_active := days_active
    commits_per_day := commits_per_day
    degradation_days := 0
    net_lines := net_lines
    code_stability := code_stability
    is_high_churn_commit := is_high_churn_commit
    bug_commit_rate := bug_commit_rate
    commits_squared := commits_squared
    author_concentration := author_concentration
    lines_per_commit := lines_per_commit
    churn_rate := churn_rate
    modification_ratio := modification_ratio
    churn_per_author := churn_per_author
    deletion_rate := deletion_rate
    commit_density := commit_density }

/-- FeatureEngineer.transform maps the record transformation over the
input array. -/
def transform (data : List CommitData) : List CommitFeatures :=
  data.map transformOne

/-- FeatureEngineer.extractFeatureVector: the fixed 26-entry ordering. -/
def extractFeatureVector (f : CommitFeatures) : List ℚ :=
  [f.commits, f.authors, f.lines_added, f.lines_deleted, f.churn,
   f.bug_commits, f.refactor_commits, f.feature_commits,
   f.lines_per_author, f.churn_per_commit, CommitFeatures.bug_ratio f,
   f.days_active, f.commits_per_day, f.degradation_days, f.net_lines,
   f.code_stability, f.is_high_churn_commit, f.bug_commit_rate,
   f.commits_squared, f.author_concentration, f.lines_per_commit,
   f.churn_rate, CommitFeatures.modification_ratio f,
   f.churn_per_author, f.deletion_rate, f.commit_density]

/-- FeatureEngineer.getFeatureNames: the canonical ordered name list. -/
def getFeatureNames : List String :=
  ["commits", "authors", "lines_added", "lines_deleted", "churn",
   "bug_commits", "refactor_commits", "feature_commits",
   "lines_per_author", "churn_per_commit", "bug_ratio", "days_active",
   "commits_per_day", "degradation_days", "net_lines", "code_stability",
   "is_high_churn_commit", "bug_commit_rate", "commits_squared",
   "author_concentration", "lines_per_commit", "churn_rate",
   "modification_ratio", "churn_per_author", "deletion_rate",
   "commit_density"]

/-! ## History Aggregator (src/services/git-commit-collector.ts) -/

/-- The file extension allow-list of GitCommitCollector. -/
def sourceExtensions : List String :=
  [".py", ".js", ".ts", ".java", ".cpp", ".c", ".h", ".hpp", ".cs",
   ".rb", ".go", ".rs", ".php", ".swift", ".kt", ".scala", ".r", ".m",
   ".jsx", ".tsx", ".vue", ".sol"]

/-- GitCommitCollector.isSourceFile: lower-cased extension membership. -/
def isSourceFile (filepath : String) : Bool :=
  sourceExtensions.contains (toLowerStr (extname filepath))

/-- The keyword sets classifying a commit message. -/
def bugKeywords : List String := ["fix", "bug", "patch", "hotfix", "bugfix"]

def featureKeywords : List String := ["feat", "feature", "add", "implement"]

def refactorKeywords : List String := ["refactor", "clean", "improve"]

/-- The line matches the stat-line test /^\d+\s+\d+\s+/ of the source:
digits, whitespace, digits, whitespace, each run nonempty.  The
character classes are disjoint, so the greedy reading is exact. -/
def matchesStatShape (line : String) : Bool :=
  let cs := line.data
  let d1 := cs.takeWhile Char.isDigit
  let r1 := cs.drop d1.length
  let w1 := r1.takeWhile isJsSpace
  let r2 := r1.drop w1.length
  let d2 := r2.takeWhile Char.isDigit
  let r3 := r2.drop d2.length
  let w2 := r3.takeWhile isJsSpace
  !d1.isEmpty && !w1.isEmpty && !d2.isEmpty && !w2.isEmpty

/-- The per-file running aggregate (FileStats).  Dates are an Option of
milliseconds since the epoch; none models a JavaScript Invalid Date
(its time value is NaN). -/
structure FileStats where
  lines_added : Int
  lines_deleted : Int
  commits : Nat
  authors : List String
  bug_commits : Nat
  feature_commits : Nat
  refactor_commits : Nat
  first_commit : Option Int
  last_commit : Option Int
deriving Repr, DecidableEq

/-- JavaScript Date comparison: false whenever either side is an
Invalid Date, because NaN comparisons are false. -/
def ltDate (a b : Option Int) : Bool :=
  match a, b with
  | some x, some y => decide (x < y)
  | _, _ => false

/-- The mutable locals of the fetchCommitData parse loop. -/
structure ParseState where
  fileStats : List (String × FileStats)
  currentAuthor : String
  currentDate : Option Int
  isBugFix : Bool
  isFeature : Bool
  isRefactor : Bool
deriving Repr, DecidableEq

/-- Lookup in the insertion-ordered map modelling the JavaScript Map. -/
def lookupStats (m : List (String × FileStats)) (k : String) : Option FileStats :=
  (m.find? (fun p => p.1 == k)).map Prod.snd

/-- Map.set: replace in place when the key exists, append otherwise. -/
def setStats (m : List (String × FileStats)) (k : String) (v : FileStats) :
    List (String × FileStats) :=
  if (m.find? (fun p => p.1 == k)).isSome then
    m.map (fun p => if p.1 == k then (k, v) else p)
  else m ++ [(k, v)]

/-- Set.add on the author set, keeping insertion order. -/
def insertAuthor (l : List String) (a : String) : List String :=
  if l.contains a then l else l ++ [a]

/-- A fresh aggregate as created on first observation of a path; both
date bounds start at the current commit date. -/
def newFileStats (d : Option Int) : FileStats :=
  { lines_added := 0, lines_deleted := 0, commits := 0, authors := [],
    bug_commits := 0, feature_commits := 0, refactor_commits := 0,
    first_commit := d, last_commit := d }

/-- Folding one already-classified stat line into the aggregate map. -/
def foldStatLine (st : ParseState) (filepath : String) (added removed : Int) :
    ParseState :=
  let stats0 := (lookupStats st.fileStats filepath).getD (newFileStats st.currentDate)
  let stats1 : FileStats :=
    { stats0 with
      lines_added := stats0.lines_added + added
      lines_deleted := stats0.lines_deleted + removed
      commits := stats0.commits + 1
      authors := insertAuthor stats0.authors st.currentAuthor
      bug_commits := stats0.bug_commits + (if st.isBugFix then 1 else 0)
      feature_commits := stats0.feature_commits + (if st.isFeature then 1 else 0)
      refactor_commits := stats0.refactor_commits + (if st.isRefactor then 1 else 0) }
  let stats2 :=
    if ltDate st.currentDate stats1.first_commit then
      { stats1 with first_commit := st.currentDate } else stats1
  let stats3 :=
    if ltDate stats2.last_commit st.currentDate then
      { stats2 with last_commit := st.currentDate } else stats2
  { st with fileStats := setStats st.fileStats filepath stats3 }

/-- One iteration of the fetchCommitData parse loop.  A line containing
a pipe is taken as a commit header; when its split has fewer than four
fields the destructured message is undefined and the source crashes at
message.toLowerCase() with a TypeError, modelled as an error result.
A line matching the stat shape is folded into the aggregate map using
the current commit context; every other line is skipped. -/
def processLine (st : ParseState) (line : String) : Except String ParseState :=
  if strContainsChar line '|' then
    match splitOnCharJS line '|' with
    | _ :: author :: timestamp :: message :: _ =>
      let messageLower := toLowerStr message
      .ok { st with
            currentAuthor := author
            currentDate := (parseIntJS timestamp).map (fun t => t * 1000)
            isBugFix := bugKeywords.any (fun kw => strIncludes messageLower kw)
            isFeature := featureKeywords.any (fun kw => strIncludes messageLower kw)
            isRefactor := refactorKeywords.any (fun kw => strIncludes messageLower kw) }
    | _ =>
      .error "TypeError: Cannot read properties of undefined (reading toLowerCase)"
  else if matchesStatShape line then
    match splitOnCharJS line '\t' with
    | p0 :: p1 :: p2 :: _ =>
      if isSourceFile p2 then
        .ok (foldStatLine st p2 ((parseIntJS p0).getD 0) ((parseIntJS p1).getD 0))
      else .ok st
    | _ => .ok st
  else .ok st

/-- Initial loop state: empty map, empty author, currentDate preset to
the wall clock (passed in as a parameter), all category flags false. -/
def initState (now : Int) : ParseState :=
  { fileStats := [], currentAuthor := "", currentDate := some now,
    isBugFix := false, isFeature := false, isRefactor := false }

/-- The whole parse loop of fetchCommitData over the split log output. -/
def parseGitLog (now : Int) (lines : List String) :
    Except String (List (String × FileStats)) :=
  (lines.foldlM processLine (initState now)).map ParseState.fileStats

/-- The record fetchCommitData builds per aggregated file.  The fields
derived from the two date bounds are Option-valued: an Invalid Date
makes them NaN in the source. -/
structure CollectedFileData where
  module : String
  filename : String
  repo_name : String
  commits : Nat
  authors : Nat
  lines_added : Int
  lines_deleted : Int
  churn : Int
  bug_commits : Nat
  refactor_commits : Nat
  feature_commits : Nat
  lines_per_author : ℚ
  churn_per_commit : ℚ
  bug_ratio : ℚ
  days_active : Option ℚ
  commits_per_day : Option ℚ
  created_at : Option Int
  last_modified : Option Int

/-- Conversion of one aggregate into the result record (the loop over
fileStats at the end of fetchCommitData).  daysActive is
Math.max(Math.ceil(delta in ms / 86400000), 1). -/
def convertStats (repoName : String) (e : String × FileStats) : CollectedFileData :=
  let stats := e.2
  let daysActive : Option ℚ :=
    match stats.first_commit, stats.last_commit with
    | some f, some l => some (max (⌈((l - f : ℤ) : ℚ) / 86400000⌉ : ℚ) 1)
    | _, _ => none
  let numAuthors := stats.authors.length
  let numCommits := stats.commits
  let churn := stats.lines_added + stats.lines_deleted
  { module := e.1
    filename := e.1
    repo_name := repoName
    commits := numCommits
    authors := numAuthors
    lines_added := stats.lines_added
    lines_deleted := stats.lines_deleted
    churn := churn
    bug_commits := stats.bug_commits
    refactor_commits := stats.refactor_commits
    feature_commits := stats.feature_commits
    lines_per_author := if 0 < numAuthors then (stats.lines_added : ℚ) / numAuthors else 0
    churn_per_commit := if 0 < numCommits then (churn : ℚ) / numCommits else 0
    bug_ratio := if 0 < numCommits then (stats.bug_commits : ℚ) / numCommits else 0
    days_active := daysActive
    commits_per_day := daysActive.map (fun d => (numCommits : ℚ) / d)
    created_at := stats.first_commit
    last_modified := stats.last_commit }

/-- GitCommitCollector.fetchCommitData from the point where the log
output is in hand: split into lines, run the parse loop, return an
empty array when no source file was aggregated, otherwise convert every
aggregate.  The thrown TypeError of a malformed header line propagates
as an error result. -/
def fetchCommitData (now : Int) (repoPath : String) (logOutput : String) :
    Except String (List CollectedFileData) := do
  let stats ← parseGitLog now (splitOnCharJS logOutput '\n')
  if stats.isEmpty then
    return []
  else
    return stats.map (convertStats (basenameJS repoPath))

/-! ## Tree Ensemble Scorer (src/services/xgboost-predictor.ts) -/

/-- One tree in the flat parallel-array encoding read by predictTree:
left-child ids, right-child ids, split feature indices, split
thresholds and leaf/base weights, all indexed by node id.  A node whose
left-child id is -1 is a leaf. -/
structure XGBoostTree where
  left_children : List Int
  right_children : List Int
  split_indices : List Nat
  split_conditions : List ℚ
  base_weights : List ℚ
deriving Repr, DecidableEq

/-- The risk_thresholds object of the model file. -/
structure RiskThresholds where
  no_risk : ℚ
  low_risk : ℚ
  medium_risk : ℚ
  high_risk : ℚ
deriving Repr, DecidableEq

/-- The parsed model structure, with the optional chains of the source
flattened into Option fields: learner_feature_names stands for
model_data.learner.feature_names, base_score for
model_data.learner.learner_model_param.base_score (kept as its raw
string encoding), trees for
model_data.learner.gradient_booster.model.trees (none models an absent
chain, turned into an empty list by the source with a fallback). -/
structure XGBoostModel where
  feature_names : Option (List String)
  learner_feature_names : Option (List String)
  base_score : Option String
  trees : Option (List XGBoostTree)
  risk_thresholds : RiskThresholds
deriving Repr, DecidableEq

/-- The four ordered risk categories. -/
inductive RiskCategory where
  | noRisk
  | lowRisk
  | mediumRisk
  | highRisk
deriving Repr, DecidableEq

/-- XGBoostPredictor.loadModel after the JSON parse succeeded: when the
top-level feature_names field is absent and the learner carries one, it
is relocated to the top level; nothing else is validated or changed. -/
def loadModel (m : XGBoostModel) : XGBoostModel :=
  match m.feature_names, m.learner_feature_names with
  | none, some names => { m with feature_names := some names }
  | _, _ => m

/-- The character class [-\d.eE] of the base_score regex. -/
def isBracketNumChar (c : Char) : Bool :=
  c.isDigit || c = '-' || c = '.' || c = 'e' || c = 'E'

/-- First match of the regex \[([-\d.eE]+)\] in the character list,
returning the captured group.  The class excludes both brackets, so the
greedy scan needs no backtracking. -/
def bracketCapture : List Char → Option (List Char)
  | [] => none
  | c :: rest =>
    if c = '[' then
      let run := rest.takeWhile isBracketNumChar
      if run.isEmpty then bracketCapture rest
      else
        match rest.drop run.length with
        | ']' :: _ => some run
        | _ => bracketCapture rest
    else bracketCapture rest

/-- The base score used by predictSingle: default 0.5, replaced by
parseFloat of the bracketed capture when the base_score string is
present (an empty string is falsy and skips the branch) and the regex
matches.  A none result models parseFloat returning NaN. -/
def baseScoreOf (bs : Option String) : Option ℚ :=
  match bs with
  | none => some (1 / 2)
  | some s =>
    if s.data.isEmpty then some (1 / 2)
    else
      match bracketCapture s.data with
      | none => some (1 / 2)
      | some run => parseFloatQ (String.mk run)

/-- JavaScript array indexing with a possibly negative id: undefined
outside the bounds, modelled as none. -/
def lookupIdx {α : Type} (l : List α) (i : Int) : Option α :=
  if i < 0 then none else l.get? i.toNat

/-- The while-true walk of predictTree, with explicit fuel.  At each
node: a left-child id of -1 returns the base weight of the node;
otherwise the feature value at the split index is compared strictly
against the split condition, descending left on less-than and right
otherwise.  A comparison in which either side is undefined is false in
JavaScript, so the walk descends right.  A missing array entry for the
next node id makes the source loop forever or poison the walk with
undefined; both are modelled as none, as is fuel exhaustion. -/
def evalFrom (t : XGBoostTree) (v : List ℚ) : Nat → Int → Option ℚ
  | 0, _ => none
  | fuel + 1, nodeId =>
    match lookupIdx t.left_children nodeId with
    | none => none
    | some lc =>
      if lc = -1 then lookupIdx t.base_weights nodeId
      else
        let fv : Option ℚ :=
          match lookupIdx t.split_indices nodeId with
          | some i => v.get? i
          | none => none
        let cond : Option ℚ := lookupIdx t.split_conditions nodeId
        let goLeft : Bool :=
          match fv, cond with
          | some a, some c => decide (a < c)
          | _, _ => false
        if goLeft then evalFrom t v fuel lc
        else
          match lookupIdx t.right_children nodeId with
          | some rc => evalFrom t v fuel rc
          | none => none

/-- XGBoostPredictor.predictTree: start the walk at the root node.  A
terminating walk never revisits a node (the successor of a node does
not depend on anything mutable), so one fuel unit per node plus one for
the final leaf covers every terminating source run. -/
def predictTree (t : XGBoostTree) (v : List ℚ) : Option ℚ :=
  evalFrom t v (t.left_children.length + 1) 0

/-- The raw ensemble sum of predictSingle before the logistic
transform: base score plus the leaf contribution of every tree. -/
def predictRaw (m : XGBoostModel) (v : List ℚ) : Option ℚ := do
  let base ← baseScoreOf m.base_score
  (m.trees.getD []).foldlM (fun acc t => (predictTree t v).map (fun w => acc + w)) base

/-- The logistic transform applied by predictSingle. -/
noncomputable def sigmoid (x : ℝ) : ℝ :=
  1 / (1 + Real.exp (-x))

/-- XGBoostPredictor.predictSingle: with an empty tree list the raw
base score is returned directly (the source logs a warning and returns
early, before the sigmoid); otherwise the sigmoid of the raw sum. -/
noncomputable def predictSingle (m : XGBoostModel) (v : List ℚ) : Option ℝ :=
  match predictRaw m v with
  | none => none
  | some r =>
    if (m.trees.getD []).isEmpty then some (r : ℝ) else some (sigmoid r)

/-- The threshold comparison chain of getRiskCategory, for a loaded
model. -/
noncomputable def getRiskCategoryOf (t : RiskThresholds) (score : ℝ) : RiskCategory :=
  if score ≤ (t.no_risk : ℝ) then .noRisk
  else if score ≤ (t.low_risk : ℝ) then .lowRisk
  else if score ≤ (t.medium_risk : ℝ) then .mediumRisk
  else .highRisk

/-- XGBoostPredictor.getRiskCategory including the null-model guard of
the source, which yields medium-risk. -/
noncomputable def getRiskCategory (m : Option XGBoostModel) (score : ℝ) : RiskCategory :=
  match m with
  | none => RiskCategory.mediumRisk
  | some model => getRiskCategoryOf model.risk_thresholds score

/-- One prediction record.  A none score models a NaN risk score; every
threshold comparison on a NaN is false, so the source then yields the
high-risk category, made explicit where the record is built. -/
structure RiskPrediction where
  module : String
  risk_score : Option ℝ
  risk_category : RiskCategory

/-- XGBoostPredictor.predict on an instance whose model field holds the
given Option: an unloaded instance throws immediately; a loaded one
transforms the records, extracts each feature vector, scores it and
classifies the score, and never throws. -/
noncomputable def predict (model : Option XGBoostModel) (commitData : List CommitData) :
    Except String (List RiskPrediction) :=
  match model with
  | none => .error "Model not loaded. Call loadModel() first."
  | some m =>
    .ok ((transform commitData).map (fun f =>
      let s := predictSingle m (extractFeatureVector f)
      { module := f.module
        risk_score := s
        risk_category :=
          match s with
          | none => RiskCategory.highRisk
          | some x => getRiskCategoryOf m.risk_thresholds x }))

/-! ## Shared lemmas and concrete inputs -/

/-- The sigmoid is strictly increasing. -/
theorem sigmoid_strictMono : StrictMono sigmoid := by
  intro x y hxy
  unfold sigmoid
  have h1 : Real.exp (-y) < Real.exp (-x) := Real.exp_lt_exp.mpr (by linarith)
  have h2 : 0 < 1 + Real.exp (-y) := by positivity
  have h3 := one_div_lt_one_div_of_lt h2
    (by linarith : 1 + Real.exp (-y) < 1 + Real.exp (-x))
  linarith

/-- The default base score. -/
theorem baseScoreOf_none : baseScoreOf none = some (1 / 2) := rfl

/-- Parsing the explicit encoding of one half. -/
theorem baseScoreOf_half : baseScoreOf (some "[0.5]") = some (1 / 2) := by
  have h : baseScoreOf (some "[0.5]") = some (partsToQ ⟨false, 0, 5, 1, 0⟩) := rfl
  rw [h]
  norm_num [partsToQ]

/-- Parsing the explicit encoding of zero. -/
theorem baseScoreOf_zeroStr : baseScoreOf (some "[0.0]") = some 0 := by
  have h : baseScoreOf (some "[0.0]") = some (partsToQ ⟨false, 0, 0, 1, 0⟩) := rfl
  rw [h]
  norm_num [partsToQ]

/-- A base_score string whose bracket regex fails falls back to the
default. -/
theorem baseScoreOf_noMatch (s : String) (h : bracketCapture s.data = none) :
    baseScoreOf (some s) = some (1 / 2) := by
  unfold baseScoreOf
  by_cases he : s.data.isEmpty
  · simp [he]
  · simp [he, h]

/-- Changing only the base_score field does not change the trees. -/
theorem predictSingle_congr_base (m : XGBoostModel) (b1 b2 : Option String)
    (h : baseScoreOf b1 = baseScoreOf b2) (v : List ℚ) :
    predictSingle { m with base_score := b1 } v =
      predictSingle { m with base_score := b2 } v := by
  unfold predictSingle predictRaw
  simp only [h]

/-- The thresholds of the shipped model configuration. -/
def t0 : RiskThresholds :=
  { no_risk := 22 / 100, low_risk := 47 / 100, medium_risk := 65 / 100,
    high_risk := 1 }

/-- A record with every count zero (and coinciding dates). -/
def zeroRec : CommitData :=
  { module := "m", lines_added := 0, lines_removed := 0, prs := 0,
    unique_authors := 0, bug_prs := 0, created_at := 0, last_modified := 0 }

/-- A record whose two dates are exactly thirty whole days apart. -/
def rec30 : CommitData :=
  { module := "m", lines_added := 0, lines_removed := 0, prs := 0,
    unique_authors := 0, bug_prs := 0, created_at := 0,
    last_modified := 30 * 86400000 }

/-- A record whose two dates are exactly one whole day apart. -/
def recDay : CommitData :=
  { module := "m", lines_added := 0, lines_removed := 0, prs := 0,
    unique_authors := 0, bug_prs := 0, created_at := 0,
    last_modified := 86400000 }

/-- A record whose two dates are half a day apart. -/
def recHalf : CommitData :=
  { module := "m", lines_added := 0, lines_removed := 0, prs := 0,
    unique_authors := 0, bug_prs := 0, created_at := 0,
    last_modified := 43200000 }

/-- The single-split tree of the end-to-end scenario: split on feature
0 at threshold 50, left leaf 0.1, right leaf -0.1. -/
def tree1 : XGBoostTree :=
  { left_children := [1, -1, -1], right_children := [2, -1, -1],
    split_indices := [0, 0, 0], split_conditions := [50, 0, 0],
    base_weights := [0, 1 / 10, -(1 / 10)] }

/-- The end-to-end scenario model: one single-split tree, explicit zero
base score. -/
def singleSplitModel : XGBoostModel :=
  { feature_names := some ["lines_added"], learner_feature_names := none,
    base_score := some "[0.0]", trees := some [tree1], risk_thresholds := t0 }

/-- A model with an empty tree list and an explicit zero base score. -/
def zeroTreeModel : XGBoostModel :=
  { feature_names := some [], learner_feature_names := none,
    base_score := some "[0.0]", trees := some [], risk_thresholds := t0 }

/-- C1 helper: with an empty tree list the raw base score is passed
through unchanged, for every input vector. -/
theorem predictSingle_zeroTreeModel (v : List ℚ) :
    predictSingle zeroTreeModel v = some ((0 : ℚ) : ℝ) := by
  have hr : predictRaw zeroTreeModel v = some 0 := by
    simp [predictRaw, zeroTreeModel, baseScoreOf_zeroStr, List.foldlM]
  unfold predictSingle
  rw [hr]
  simp [zeroTreeModel]

/-! ## Claim theorems -/

/-- C1: the claim says a zero-tree model scores sigmoid(base_score), in
particular 0.5 for base_score 0.0.  The code instead returns the raw
base score without the logistic transform: on a model with an empty
tree list and base_score 0.0 every vector scores exactly 0, which
differs from sigmoid 0 = 0.5, contradicting the claimed behavior
(though no error is raised). -/
theorem c1_zero_trees_return_raw_base :
    (∀ v : List ℚ, predictSingle zeroTreeModel v = some ((0 : ℚ) : ℝ))
    ∧ sigmoid 0 = 1 / 2
    ∧ ((0 : ℚ) : ℝ) ≠ sigmoid 0 := by
  refine ⟨predictSingle_zeroTreeModel, ?_, ?_⟩
  · unfold sigmoid
    rw [neg_zero, Real.exp_zero]
    norm_num
  · unfold sigmoid
    rw [neg_zero, Real.exp_zero]
    push_cast
    norm_num

/-- C9: transform floors zero commit and author counts to 1 before
dividing (and its day count is also at least 1), and the all-zero
record yields churn_per_commit 0, author_concentration 1 and
code_stability 1, with every guarded denominator at least 1. -/
theorem c9_zero_counts_floored :
    (∀ r : CommitData,
      1 ≤ (transformOne r).commits ∧ 1 ≤ (transformOne r).authors ∧
        1 ≤ (transformOne r).days_active)
    ∧ (transformOne zeroRec).commits = 1
    ∧ (transformOne zeroRec).authors = 1
    ∧ (transformOne zeroRec).churn_per_commit = 0
    ∧ (transformOne zeroRec).author_concentration = 1
    ∧ (transformOne zeroRec).code_stability = 1 := by
  refine ⟨fun r => ⟨?_, ?_, ?_⟩, ?_, ?_, ?_, ?_, ?_⟩
  · simp [transformOne]
  · simp [transformOne]
  · simp [transformOne]
  all_goals norm_num [transformOne, zeroRec]

/-- C4 (counterexample): on a record whose dates are exactly thirty
whole days apart the transform yields days_active 31, while the claimed
formula max(1, ceil(delta in days)) yields 30. -/
theorem c4_thirty_days_counterexample :
    (transformOne rec30).days_active = 31
    ∧ max (1 : ℚ)
        ((⌈(rec30.last_modified - rec30.created_at) / 86400000⌉ : ℤ) : ℚ) = 30 := by
  constructor
  · norm_num [transformOne, rec30]
  · norm_num [rec30]

/-- C4 (amended): the transform computes days_active as
max(1, floor(delta in days) + 1).  Away from whole-day separations this
agrees with the claimed max(1, ceil(delta in days)); at a whole-day
separation it is one more than the claimed ceiling formula. -/
theorem c4_days_active_floor_plus_one (r : CommitData) :
    ((r.last_modified - r.created_at) / 86400000 ≠
        ((⌊(r.last_modified - r.created_at) / 86400000⌋ : ℤ) : ℚ) →
      (transformOne r).days_active =
        max 1 ((⌈(r.last_modified - r.created_at) / 86400000⌉ : ℤ) : ℚ))
    ∧ ((r.last_modified - r.created_at) / 86400000 =
        ((⌊(r.last_modified - r.created_at) / 86400000⌋ : ℤ) : ℚ) →
      (transformOne r).days_active =
        max 1 (((⌈(r.last_modified - r.created_at) / 86400000⌉ : ℤ) : ℚ) + 1)) := by
  set d : ℚ := (r.last_modified - r.created_at) / 86400000 with hd
  have hda : (transformOne r).days_active = max 1 ((⌊d⌋ : ℚ) + 1) := by
    simp [transformOne]
  constructor
  · intro h
    have hlt : (⌊d⌋ : ℚ) < d := lt_of_le_of_ne (Int.floor_le d) (fun he => h he.symm)
    have hceil : ⌈d⌉ = ⌊d⌋ + 1 := by
      refine le_antisymm (Int.ceil_le_floor_add_one d) ?_
      have h1 : (⌊d⌋ : ℚ) < (⌈d⌉ : ℚ) := lt_of_lt_of_le hlt (Int.le_ceil d)
      have h2 : ⌊d⌋ < ⌈d⌉ := by exact_mod_cast h1
      omega
    rw [hda, hceil]
    push_cast
    ring_nf
  · intro h
    have hceil : ⌈d⌉ = ⌊d⌋ := by
      conv_lhs => rw [h]
      exact Int.ceil_intCast ⌊d⌋
    rw [hda, hceil]

/-- C4 (witness): the amended characterization applied at a half-day
separation (days_active 1, agreeing with the ceiling) and at a
one-whole-day separation (days_active 2, one more than the ceiling). -/
theorem c4_days_active_witness :
    (transformOne recHalf).days_active = 1
    ∧ (transformOne recDay).days_active = 2 := by
  constructor
  · have h := (c4_days_active_floor_plus_one recHalf).1 (by norm_num [recHalf])
    rw [h]
    have hc : (⌈(recHalf.last_modified - recHalf.created_at) / 86400000⌉ : ℤ) = 1 := by
      rw [Int.ceil_eq_iff]
      constructor
      · norm_num [recHalf]
      · norm_num [recHalf]
    rw [hc]
    norm_num
  · have h := (c4_days_active_floor_plus_one recDay).2 (by norm_num [recDay])
    rw [h]
    norm_num [recDay]

/-- C5: classification against boundaries b1 < b2 < b3 is inclusive on
the lower bucket: the lowest category exactly when the score is at or
below b1, the second exactly when strictly above b1 and at or below b2,
the third exactly when strictly above b2 and at or below b3, and the
highest exactly when strictly above b3. -/
theorem c5_threshold_classification (m : XGBoostModel) (s : ℝ)
    (h1 : m.risk_thresholds.no_risk < m.risk_thresholds.low_risk)
    (h2 : m.risk_thresholds.low_risk < m.risk_thresholds.medium_risk) :
    (getRiskCategory (some m) s = RiskCategory.noRisk ↔
      s ≤ (m.risk_thresholds.no_risk : ℝ))
    ∧ (getRiskCategory (some m) s = RiskCategory.lowRisk ↔
      ((m.risk_thresholds.no_risk : ℝ) < s ∧ s ≤ (m.risk_thresholds.low_risk : ℝ)))
    ∧ (getRiskCategory (some m) s = RiskCategory.mediumRisk ↔
      ((m.risk_thresholds.low_risk : ℝ) < s ∧ s ≤ (m.risk_thresholds.medium_risk : ℝ)))
    ∧ (getRiskCategory (some m) s = RiskCategory.highRisk ↔
      (m.risk_thresholds.medium_risk : ℝ) < s) := by
  set b1 : ℝ := (m.risk_thresholds.no_risk : ℝ) with hb1
  set b2 : ℝ := (m.risk_thresholds.low_risk : ℝ) with hb2
  set b3 : ℝ := (m.risk_thresholds.medium_risk : ℝ) with hb3
  have h12 : b1 < b2 := by rw [hb1, hb2]; exact_mod_cast h1
  have h23 : b2 < b3 := by rw [hb2, hb3]; exact_mod_cast h2
  by_cases hs1 : s ≤ b1
  · have hval : getRiskCategory (some m) s = RiskCategory.noRisk := by
      simp [getRiskCategory, getRiskCategoryOf, hs1]
    rw [hval]
    refine ⟨iff_of_true rfl hs1, iff_of_false (by simp) ?_,
      iff_of_false (by simp) ?_, iff_of_false (by simp) ?_⟩
    · rintro ⟨hlt, _⟩; linarith
    · rintro ⟨hlt, _⟩; linarith
    · intro hlt; linarith
  · push_neg at hs1
    by_cases hs2 : s ≤ b2
    · have hval : getRiskCategory (some m) s = RiskCategory.lowRisk := by
        simp [getRiskCategory, getRiskCategoryOf, not_le.mpr hs1, hs2]
      rw [hval]
      refine ⟨iff_of_false (by simp) ?_, iff_of_true rfl ⟨hs1, hs2⟩,
        iff_of_false (by simp) ?_, iff_of_false (by simp) ?_⟩
      · intro hle; linarith
      · rintro ⟨hlt, _⟩; linarith
      · intro hlt; linarith
    · push_neg at hs2
      by_cases hs3 : s ≤ b3
      · have hval : getRiskCategory (some m) s = RiskCategory.mediumRisk := by
          simp [getRiskCategory, getRiskCategoryOf, not_le.mpr hs1, not_le.mpr hs2, hs3]
        rw [hval]
        refine ⟨iff_of_false (by simp) ?_, iff_of_false (by simp) ?_,
          iff_of_true rfl ⟨hs2, hs3⟩, iff_of_false (by simp) ?_⟩
        · intro hle; linarith
        · rintro ⟨_, hle⟩; linarith
        · intro hlt; linarith
      · push_neg at hs3
        have hval : getRiskCategory (some m) s = RiskCategory.highRisk := by
          simp [getRiskCategory, getRiskCategoryOf, not_le.mpr hs1, not_le.mpr hs2,
            not_le.mpr hs3]
        rw [hval]
        refine ⟨iff_of_false (by simp) ?_, iff_of_false (by simp) ?_,
          iff_of_false (by simp) ?_, iff_of_true rfl hs3⟩
        · intro hle; linarith
        · rintro ⟨_, hle⟩; linarith
        · rintro ⟨_, hle⟩; linarith

/-- C5 (witness): with the boundaries 0.22, 0.47, 0.65 a score of
exactly 0.22 classifies into the lowest bucket. -/
theorem c5_threshold_classification_witness :
    getRiskCategory (some singleSplitModel) ((22 / 100 : ℚ) : ℝ) =
      RiskCategory.noRisk := by
  have h := (c5_threshold_classification singleSplitModel ((22 / 100 : ℚ) : ℝ)
    (by norm_num [singleSplitModel, t0]) (by norm_num [singleSplitModel, t0])).1
  exact h.mpr (by norm_num [singleSplitModel, t0])

/-- C6: the tree walk returns the base weight at a node whose left
child id is -1; at an internal node it descends to the left child
exactly when the feature value at the split index is strictly below the
split condition and to the right child otherwise; and on the end-to-end
scenario model (single split on feature 0 at 50, leaves 0.1 and -0.1)
the score of [30] is strictly greater than the score of [70]. -/
theorem c6_tree_walk :
    (∀ (t : XGBoostTree) (v : List ℚ) (fuel : ℕ) (n : ℤ),
        lookupIdx t.left_children n = some (-1) →
        evalFrom t v (fuel + 1) n = lookupIdx t.base_weights n)
    ∧ (∀ (t : XGBoostTree) (v : List ℚ) (fuel : ℕ) (n lc : ℤ) (i : ℕ) (a c : ℚ),
        lookupIdx t.left_children n = some lc → lc ≠ -1 →
        lookupIdx t.split_indices n = some i → v.get? i = some a →
        lookupIdx t.split_conditions n = some c →
        evalFrom t v (fuel + 1) n =
          if a < c then evalFrom t v fuel lc
          else Option.bind (lookupIdx t.right_children n) (evalFrom t v fuel))
    ∧ (∃ x y : ℝ,
        predictSingle singleSplitModel [30] = some x ∧
        predictSingle singleSplitModel [70] = some y ∧ y < x) := by
  refine ⟨?_, ?_, ?_⟩
  · intro t v fuel n h
    simp only [evalFrom]
    rw [h]
    simp
  · intro t v fuel n lc i a c hl hlc hi hv hc
    simp only [evalFrom]
    rw [hl]
    simp only [hlc, if_neg hlc, hi, hv, hc]
    by_cases hac : a < c
    · simp [hac]
    · simp only [hac, decide_eq_true_eq, if_neg hac, if_false]
      cases hr : lookupIdx t.right_children n <;> simp [hr]
  · refine ⟨sigmoid ((1 / 10 : ℚ) : ℝ), sigmoid ((-(1 / 10) : ℚ) : ℝ), ?_, ?_, ?_⟩
    · have hr : predictRaw singleSplitModel [30] = some (1 / 10) := by
        have hb : baseScoreOf (some "[0.0]") = some 0 := baseScoreOf_zeroStr
        have ht : predictTree tree1 [30] = some (1 / 10) := by
          norm_num [predictTree, tree1, evalFrom, lookupIdx]
        simp [predictRaw, singleSplitModel, hb, ht, List.foldlM]
      unfold predictSingle
      rw [hr]
      simp [singleSplitModel]
    · have hr : predictRaw singleSplitModel [70] = some (-(1 / 10)) := by
        have hb : baseScoreOf (some "[0.0]") = some 0 := baseScoreOf_zeroStr
        have ht : predictTree tree1 [70] = some (-(1 / 10)) := by
          norm_num [predictTree, tree1, evalFrom, lookupIdx]
          norm_num [show ((2 : ℤ)).toNat = 2 from rfl, evalFrom, lookupIdx]
        simp [predictRaw, singleSplitModel, hb, ht, List.foldlM]
      unfold predictSingle
      rw [hr]
      simp [singleSplitModel]
    · refine sigmoid_strictMono ?_
      push_cast
      norm_num

/-- C6 (witness): the two walk characterizations applied on the
concrete scenario tree, at its leaf node 1 and at its root split. -/
theorem c6_tree_walk_witness :
    evalFrom tree1 [30] 1 1 = lookupIdx tree1.base_weights 1
    ∧ evalFrom tree1 [30] (3 + 1) 0 =
        (if (30 : ℚ) < 50 then evalFrom tree1 [30] 3 1
         else Option.bind (lookupIdx tree1.right_children 0) (evalFrom tree1 [30] 3)) :=
  ⟨c6_tree_walk.1 tree1 [30] 0 1 rfl,
   c6_tree_walk.2.1 tree1 [30] 3 0 1 0 30 50 rfl (by decide) rfl rfl rfl⟩

/-- C7: calling predict on an instance whose model is still null throws
the fatal usage error immediately; after loadModel has succeeded on any
parsed model structure, predict always returns a result list and never
that error. -/
theorem c7_predict_requires_loaded_model :
    (∀ data : List CommitData,
        predict none data = .error "Model not loaded. Call loadModel() first.")
    ∧ (∀ (m : XGBoostModel) (data : List CommitData),
        ∃ l, predict (some (loadModel m)) data = .ok l) :=
  ⟨fun _ => rfl, fun _ _ => ⟨_, rfl⟩⟩

/-- A tree consisting of a single leaf of weight 0.1. -/
def leafTree : XGBoostTree :=
  { left_children := [-1], right_children := [-1], split_indices := [0],
    split_conditions := [0], base_weights := [1 / 10] }

/-- A model whose feature-name list has two entries, far from the 26
fields the feature engineer produces. -/
def mismatchedModel : XGBoostModel :=
  { feature_names := some ["a", "b"], learner_feature_names := none,
    base_score := none, trees := some [leafTree], risk_thresholds := t0 }

/-- The single-leaf tree contributes its leaf weight for any vector. -/
theorem predictTree_leafTree (v : List ℚ) : predictTree leafTree v = some (1 / 10) := by
  norm_num [predictTree, leafTree, evalFrom, lookupIdx]

/-- C2 (counterexample): a model whose feature-name list has length 2,
against the 26 fields the feature engineer produces, loads without any
error and predict silently produces a fully scored prediction instead
of failing with a configuration error. -/
theorem c2_mismatch_scores_silently :
    (loadModel mismatchedModel).feature_names = some ["a", "b"]
    ∧ getFeatureNames.length = 26
    ∧ (extractFeatureVector (transformOne zeroRec)).length = 26
    ∧ (2 : ℕ) ≠ 26
    ∧ predict (some (loadModel mismatchedModel)) [zeroRec] =
        .ok [{ module := "m",
               risk_score := some (sigmoid ((3 / 5 : ℚ) : ℝ)),
               risk_category := getRiskCategoryOf t0 (sigmoid ((3 / 5 : ℚ) : ℝ)) }] := by
  refine ⟨rfl, rfl, rfl, by norm_num, ?_⟩
  have hps : predictSingle mismatchedModel (extractFeatureVector (transformOne zeroRec)) =
      some (sigmoid ((3 / 5 : ℚ) : ℝ)) := by
    have hr : predictRaw mismatchedModel (extractFeatureVector (transformOne zeroRec)) =
        some (3 / 5) := by
      simp [predictRaw, mismatchedModel, baseScoreOf_none, predictTree_leafTree,
        List.foldlM]
      norm_num
    unfold predictSingle
    rw [hr]
    simp [mismatchedModel]
  have hload : loadModel mismatchedModel = mismatchedModel := rfl
  rw [hload]
  unfold predict transform
  simp only [List.map, hps]
  rfl

/-- C2 (amended): the pipeline performs no feature-count validation at
all: for every parsed model structure, whatever the length of its
feature-name list, loading succeeds and predict returns one scored
prediction per input record; a split feature index outside the vector
makes the comparison false, so the walk silently descends to the right
child. -/
theorem c2_no_feature_count_validation :
    (∀ (m : XGBoostModel) (data : List CommitData),
        ∃ l, predict (some (loadModel m)) data = .ok l ∧ l.length = data.length)
    ∧ (∀ (t : XGBoostTree) (v : List ℚ) (fuel : ℕ) (n lc : ℤ) (i : ℕ),
        lookupIdx t.left_children n = some lc → lc ≠ -1 →
        lookupIdx t.split_indices n = some i → v.get? i = none →
        evalFrom t v (fuel + 1) n =
          Option.bind (lookupIdx t.right_children n) (evalFrom t v fuel)) := by
  constructor
  · intro m data
    exact ⟨_, rfl, by simp [transform]⟩
  · intro t v fuel n lc i hl hlc hi hv
    simp only [evalFrom]
    rw [hl]
    simp only [hlc, if_neg hlc, hi, hv]
    cases hr : lookupIdx t.right_children n <;> simp [hr]

/-- A tree whose root split index 5 is outside a one-entry vector. -/
def oorTree : XGBoostTree :=
  { left_children := [1, -1, -1], right_children := [2, -1, -1],
    split_indices := [5, 0, 0], split_conditions := [50, 0, 0],
    base_weights := [0, 1 / 10, -(1 / 10)] }

/-- C2 (witness): the amended statement applied to the two-name model
on an empty batch, and to a concrete out-of-range split index which
descends right. -/
theorem c2_no_feature_count_validation_witness :
    (∃ l, predict (some (loadModel mismatchedModel)) [] = .ok l ∧
        l.length = ([] : List CommitData).length)
    ∧ evalFrom oorTree [30] (0 + 1) 0 =
        Option.bind (lookupIdx oorTree.right_children 0) (evalFrom oorTree [30] 0) :=
  ⟨c2_no_feature_count_validation.1 mismatchedModel [],
   c2_no_feature_count_validation.2 oorTree [30] 0 0 1 5 rfl (by decide) rfl rfl⟩

/-- C10: when the base_score entry is absent the default 0.5 is used,
and a model with the explicit encoding 0.5 scores identically; when the
entry is present but does not match the bracketed-number regex, the
default is likewise used silently. -/
theorem c10_default_base_score :
    (∀ (m : XGBoostModel) (v : List ℚ), m.base_score = none →
        predictSingle m v = predictSingle { m with base_score := some "[0.5]" } v)
    ∧ (∀ (m : XGBoostModel) (v : List ℚ) (s : String), m.base_score = some s →
        bracketCapture s.data = none →
        predictSingle m v = predictSingle { m with base_score := none } v) := by
  constructor
  · intro m v h
    have hm : m = { m with base_score := none } := by
      cases m
      simp_all
    conv_lhs => rw [hm]
    exact predictSingle_congr_base m none (some "[0.5]")
      (by rw [baseScoreOf_none, baseScoreOf_half]) v
  · intro m v s h hb
    have hm : m = { m with base_score := some s } := by
      cases m
      simp_all
    conv_lhs => rw [hm]
    exact predictSingle_congr_base m (some s) none
      (by rw [baseScoreOf_noMatch s hb, baseScoreOf_none]) v

/-- A zero-tree model with no base_score entry at all. -/
def defaultBaseModel : XGBoostModel :=
  { feature_names := some [], learner_feature_names := none,
    base_score := none, trees := some [], risk_thresholds := t0 }

/-- The same model with a base_score string the bracket regex rejects. -/
def plainHalfModel : XGBoostModel :=
  { defaultBaseModel with base_score := some "0.5" }

/-- C10 (witness): both replacement statements applied on concrete
models. -/
theorem c10_default_base_score_witness :
    predictSingle defaultBaseModel [] =
      predictSingle { defaultBaseModel with base_score := some "[0.5]" } []
    ∧ predictSingle plainHalfModel [] =
      predictSingle { plainHalfModel with base_score := none } [] :=
  ⟨c10_default_base_score.1 defaultBaseModel [] rfl,
   c10_default_base_score.2 plainHalfModel [] "0.5" rfl rfl⟩

/-- A line whose pipe-split has at least four fields, or no pipe at
all, can never make the loop iteration fail. -/
theorem processLine_ok_of_wellformed (st : ParseState) (line : String)
    (h : strContainsChar line '|' = true → 4 ≤ (splitOnCharJS line '|').length) :
    ∃ st2, processLine st line = .ok st2 := by
  by_cases hc : strContainsChar line '|'
  · have h4 := h hc
    match hl : splitOnCharJS line '|' with
    | [] => rw [hl] at h4; simp at h4
    | [a] => rw [hl] at h4; simp at h4
    | [a, b] => rw [hl] at h4; simp at h4
    | [a, b, c] => rw [hl] at h4; simp at h4
    | a :: b :: c :: d :: t =>
      exact ⟨{ st with
               currentAuthor := b
               currentDate := Option.map (fun x => x * 1000) (parseIntJS c)
               isBugFix := bugKeywords.any fun kw => strIncludes (toLowerStr d) kw
               isFeature := featureKeywords.any fun kw => strIncludes (toLowerStr d) kw
               isRefactor := refactorKeywords.any fun kw => strIncludes (toLowerStr d) kw },
             by simp [processLine, hc, hl]⟩
  · by_cases hm : matchesStatShape line
    · match hs : splitOnCharJS line '\t' with
      | [] => exact ⟨st, by simp [processLine, hc, hm, hs]⟩
      | [p0] => exact ⟨st, by simp [processLine, hc, hm, hs]⟩
      | [p0, p1] => exact ⟨st, by simp [processLine, hc, hm, hs]⟩
      | p0 :: p1 :: p2 :: t =>
        by_cases hsf : isSourceFile p2
        · exact ⟨foldStatLine st p2 ((parseIntJS p0).getD 0) ((parseIntJS p1).getD 0),
                 by simp [processLine, hc, hm, hs, hsf]⟩
        · exact ⟨st, by simp [processLine, hc, hm, hs, hsf]⟩
    · exact ⟨st, by simp [processLine, hc, hm]⟩

/-- The whole fold succeeds when every pipe-bearing line splits into at
least four fields. -/
theorem foldlM_processLine_ok (lines : List String) :
    ∀ st : ParseState,
      (∀ l ∈ lines, strContainsChar l '|' = true → 4 ≤ (splitOnCharJS l '|').length) →
      ∃ st2, List.foldlM processLine st lines = .ok st2 := by
  induction lines with
  | nil => exact fun st _ => ⟨st, rfl⟩
  | cons l ls ih =>
    intro st h
    obtain ⟨st1, h1⟩ := processLine_ok_of_wellformed st l (h l (by simp))
    obtain ⟨st2, h2⟩ := ih st1 (fun x hx => h x (by simp [hx]))
    refine ⟨st2, ?_⟩
    rw [List.foldlM_cons, h1]
    exact h2

/-- C3 (counterexample): a line that matches neither the four-field
commit-header shape nor the numeric-stat shape, but contains a pipe,
aborts the whole parse (the source crashes reading toLowerCase of an
undefined message field) instead of being skipped. -/
theorem c3_malformed_pipe_line_aborts :
    strContainsChar "corrupt|log line" '|' = true
    ∧ (splitOnCharJS "corrupt|log line" '|').length = 2
    ∧ matchesStatShape "corrupt|log line" = false
    ∧ parseGitLog 0 ["corrupt|log line"] =
        .error "TypeError: Cannot read properties of undefined (reading toLowerCase)"
    ∧ fetchCommitData 0 "/repo" "corrupt|log line" =
        .error "TypeError: Cannot read properties of undefined (reading toLowerCase)" :=
  ⟨rfl, rfl, rfl, rfl, rfl⟩

/-- C3 (amended): a line with no pipe that does not match the
numeric-stat shape is skipped, leaving the state unchanged; and a parse
over lines in which every pipe-bearing line splits into at least four
fields always completes without error.  A pipe-bearing line with fewer
than four fields, however, is treated as a commit header and aborts the
parse. -/
theorem c3_skip_nonmatching_lines :
    (∀ (st : ParseState) (line : String),
        strContainsChar line '|' = false → matchesStatShape line = false →
        processLine st line = .ok st)
    ∧ (∀ (now : Int) (lines : List String),
        (∀ l ∈ lines, strContainsChar l '|' = true → 4 ≤ (splitOnCharJS l '|').length) →
        ∃ r, parseGitLog now lines = .ok r) := by
  constructor
  · intro st line h1 h2
    simp [processLine, h1, h2]
  · intro now lines h
    obtain ⟨st2, h2⟩ := foldlM_processLine_ok lines (initState now) h
    exact ⟨st2.fileStats, by unfold parseGitLog; rw [h2]; rfl⟩

/-- C3 (witness): the skip statement applied to a concrete binary-file
marker line, and the whole-parse statement applied to a concrete
well-formed log. -/
theorem c3_skip_nonmatching_lines_witness :
    processLine (initState 0) "-\t-\timg.png" = .ok (initState 0)
    ∧ (∃ r, parseGitLog 0 ["a|u@x|100|fix bug"] = .ok r) :=
  ⟨c3_skip_nonmatching_lines.1 (initState 0) "-\t-\timg.png" rfl rfl,
   c3_skip_nonmatching_lines.2 0 ["a|u@x|100|fix bug"] (by decide)⟩

/-- C8 (counterexample): a log output without a single parsed
source-file stat line on which fetchCommitData raises an error rather
than returning the empty collection: its only line matches the
numeric-stat shape but carries a pipe in the file path, so it is taken
for a commit header and crashes the parse. -/
theorem c8_error_despite_no_source_stats :
    fetchCommitData 0 "/repo" "3\t1\tsrc/weird|name.ts" =
      .error "TypeError: Cannot read properties of undefined (reading toLowerCase)"
    ∧ fetchCommitData 0 "/repo" "3\t1\tsrc/weird|name.ts" ≠ .ok [] := by
  constructor
  · rfl
  · intro h
    have h0 : fetchCommitData 0 "/repo" "3\t1\tsrc/weird|name.ts" =
        .error "TypeError: Cannot read properties of undefined (reading toLowerCase)" := rfl
    rw [h0] at h
    exact Except.noConfusion h

/-- C8 (amended): when the parse itself completes, an aggregate map
without any source file yields the ok empty collection (not an error),
and a non-empty aggregate map yields an ok non-empty collection — so an
empty return value signals only data sparsity, never a failure. -/
theorem c8_empty_means_sparsity :
    (∀ (now : Int) (repoPath logOutput : String),
        parseGitLog now (splitOnCharJS logOutput '\n') = .ok [] →
        fetchCommitData now repoPath logOutput = .ok [])
    ∧ (∀ (now : Int) (repoPath logOutput : String)
        (stats : List (String × FileStats)),
        parseGitLog now (splitOnCharJS logOutput '\n') = .ok stats → stats ≠ [] →
        ∃ l, fetchCommitData now repoPath logOutput = .ok l ∧ l ≠ []) := by
  constructor
  · intro now rp lo h
    unfold fetchCommitData
    rw [h]
    rfl
  · intro now rp lo stats h hne
    refine ⟨stats.map (convertStats (basenameJS rp)), ?_, ?_⟩
    · cases stats with
      | nil => exact absurd rfl hne
      | cons a t =>
        unfold fetchCommitData
        rw [h]
        rfl
    · cases stats with
      | nil => exact absurd rfl hne
      | cons a t => simp

/-- C8 (witness): the amended statement applied to a concrete log with
only a non-source file (ok empty) and to one with a source file (ok
non-empty). -/
theorem c8_empty_means_sparsity_witness :
    fetchCommitData 0 "/repo" "a|u@x|100|fix docs\n5\t2\tREADME.md" = .ok []
    ∧ (∃ l, fetchCommitData 0 "/repo" "a|u@x|100|fix bug\n5\t2\tsrc/a.ts" = .ok l
        ∧ l ≠ []) :=
  ⟨c8_empty_means_sparsity.1 0 "/repo" "a|u@x|100|fix docs\n5\t2\tREADME.md" rfl,
   c8_empty_means_sparsity.2 0 "/repo" "a|u@x|100|fix bug\n5\t2\tsrc/a.ts"
     [("src/a.ts",
       { lines_added := 5, lines_deleted := 2, commits := 1, authors := ["u@x"],
         bug_commits := 1, feature_commits := 0, refactor_commits := 0,
         first_commit := some 100000, last_commit := some 100000 })]
     rfl (by simp)⟩

end MaintSight
